import Mathlib

/-!
Verification of the scene-import module
(`src/addons/io_scene_gltf2_osrs/blender/imp/gltf2_blender_scene.py`).

The module is embedded shallowly: the glTF document and the virtual-node
mapping become explicit data, host-visible side effects become event
traces, and Python exceptions (KeyError on the vnode dictionary,
IndexError on the scene list) become `Except.error`.
-/

namespace GltfImport

/-- Identifier of a virtual node: a glTF node index, or the synthetic
sentinel `'root'` created by `compute_vnodes`. -/
inductive NodeId where
  | root
  | idx (n : Nat)
  deriving DecidableEq, Repr

/-- The three virtual-node kinds (`VNode.Object`, `VNode.Bone`,
`VNode.DummyRoot` in the source). -/
inductive VKind where
  | Object
  | Bone
  | DummyRoot
  deriving DecidableEq, Repr

/-- A virtual node as the importer consumes it: its kind, ordered child
identifiers, and (meaningful only for kind `Bone`) the identifier of the
armature object owning the bone (`bone_arma`). The materialized
`blender_object` is identified with the node id itself in this model. -/
structure VNode where
  type : VKind
  children : List NodeId := []
  bone_arma : NodeId := NodeId.root
  deriving DecidableEq, Repr

/-- A parsed glTF scene entry: its root node indices. -/
structure PyScene where
  nodes : List Nat := []
  deriving DecidableEq, Repr

/-- A parsed glTF animation entry: the importer only reads its
`track_name` here. -/
structure PyAnim where
  track_name : String
  deriving DecidableEq, Repr

/-- The parts of the parsed glTF document (`gltf.data`) this module reads:
the designated default scene index (`scene`, optional), the scene list and
the animation list. -/
structure GltfData where
  scene : Option Nat := none
  scenes : List PyScene := []
  animations : List PyAnim := []
  deriving DecidableEq, Repr

/-- The importer state: the document plus the virtual-node mapping
produced by `compute_vnodes` (`gltf.vnodes`), an insertion-ordered
dictionary modelled as an association list. -/
structure GltfState where
  data : GltfData
  vnodes : List (NodeId × VNode) := []
  deriving DecidableEq, Repr

/-- Dictionary lookup on the vnode mapping (first matching key). -/
def lookupId : List (NodeId × VNode) → NodeId → Option VNode
  | [], _ => none
  | p :: rest, i => if p.1 = i then some p.2 else lookupId rest i

/-- Host-visible steps of one import, in the order `BlenderScene` performs
them. -/
inductive Ev where
  | setRenderEngine
  | hookBeforeScene (si : Nat)
  | setExtras (si : Nat)
  | computeVnodes
  | createVnodeRoot
  | hookAnimOptions
  | animCreate (i : Nat)
  | animRestore (name : String)
  | hookAfterNodes (scene : Option Nat)
  | hookAfterAnim (scene : Option Nat)
  | modeSetObject
  | selectObjects
  | setActiveObject
  deriving DecidableEq, Repr

/-- `BlenderScene.create_animations` (lines 122-143) as the trace of steps
it performs. The user hook `gather_import_animations` receives an options
object whose `restore_first_anim` field starts out `true` and may mutate
it; `animHook` is the hook's effect on that field. Track creation
(line 137-138) walks `reversed(range(len(gltf.data.animations)))`; the
restore step (lines 141-143) runs only when the flag is still set and
uses the track name of the animation declared first. -/
def create_animations (g : GltfState) (animHook : Bool → Bool) : List Ev :=
  let restore_first_anim := animHook true
  Ev.hookAnimOptions ::
    match g.data.animations with
    | [] => []
    | a0 :: rest =>
      ((List.range (a0 :: rest).length).reverse.map Ev.animCreate)
        ++ (if restore_first_anim then [Ev.animRestore a0.track_name] else [])

/-- The sequence of animation indices, in creation order, that one run of
`create_animations` materializes tracks for. -/
def animCreationOrder (g : GltfState) (animHook : Bool → Bool) : List Nat :=
  (create_animations g animHook).filterMap fun e =>
    match e with
    | Ev.animCreate i => some i
    | _ => none

/-- Concrete document with three animations, used for witnesses. -/
def gAnims : GltfState :=
  { data := { scene := none, scenes := [],
              animations := [⟨"A0"⟩, ⟨"A1"⟩, ⟨"A2"⟩] },
    vnodes := [] }

/-- The `for pyscene in gltf.data.scenes or []` loop of lines 167-171:
scan the scenes in declaration order and stop at the first one with a
nonempty root-node list, yielding its first root. -/
def firstRootOfScenes : List PyScene → Option Nat
  | [] => none
  | s :: rest =>
    match s.nodes with
    | [] => firstRootOfScenes rest
    | n :: _ => some n

/-- Lines 180-183 of `set_active_object`: once a vnode is chosen, a Bone
is replaced by the vnode under its `bone_arma` reference, and the chosen
vnode's materialized object becomes the active object (identified here by
the vnode id). -/
def finish_active (g : GltfState) (p : NodeId × VNode) : Except String (Option NodeId) :=
  if p.2.type = VKind.Bone then
    match lookupId g.vnodes p.2.bone_arma with
    | none => Except.error "KeyError: vnodes"
    | some _ => Except.ok (some p.2.bone_arma)
  else
    Except.ok (some p.1)

/-- Lines 167-178 of `set_active_object`, the part reached when the
designated default scene yielded no vnode: try the first root of the
first scene that has roots, then fall back to the synthetic root's first
child (returning with no active object when the DummyRoot is childless,
line 177). -/
def active_fallback (g : GltfState) : Except String (Option NodeId) :=
  -- lines 167-171: the first root of the first scene that has roots
  let try2 : Except String (Option (NodeId × VNode)) :=
    match firstRootOfScenes g.data.scenes with
    | none => Except.ok none
    | some n =>
      match lookupId g.vnodes (NodeId.idx n) with
      | none => Except.error "KeyError: vnodes"
      | some v => Except.ok (some (NodeId.idx n, v))
  match try2 with
  | Except.error e => Except.error e
  | Except.ok (some p) => finish_active g p
  | Except.ok none =>
    -- lines 173-178: fall back to the synthetic root's first child
    match lookupId g.vnodes NodeId.root with
    | none => Except.error "KeyError: vnodes"
    | some v =>
      if v.type = VKind.DummyRoot then
        match v.children with
        | [] => Except.ok none
        | c :: _ =>
          match lookupId g.vnodes c with
          | none => Except.error "KeyError: vnodes"
          | some vc => finish_active g (c, vc)
      else
        finish_active g (NodeId.root, v)

/-- `BlenderScene.set_active_object` (lines 155-183). `Except.ok none`
means the function returned without setting an active object (line 177);
`Except.ok (some i)` means the object materialized for vnode `i` was made
active; `Except.error` models a Python KeyError/IndexError on a missing
vnode id or an out-of-range default-scene index. -/
def set_active_object (g : GltfState) : Except String (Option NodeId) :=
  -- lines 162-165: the first root of the designated default scene
  let try1 : Except String (Option (NodeId × VNode)) :=
    match g.data.scene with
    | none => Except.ok none
    | some si =>
      match g.data.scenes[si]? with
      | none => Except.error "IndexError: scene index out of range"
      | some pyscene =>
        match pyscene.nodes with
        | [] => Except.ok none
        | n :: _ =>
          match lookupId g.vnodes (NodeId.idx n) with
          | none => Except.error "KeyError: vnodes"
          | some v => Except.ok (some (NodeId.idx n, v))
  match try1 with
  | Except.error e => Except.error e
  | Except.ok (some p) => finish_active g p
  | Except.ok none => active_fallback g

/-- Steps (b)-(d) of the specification's active-object resolution
(section 4.4): the first root node found scanning the scenes in
declaration order, else the first child of the DummyRoot, else none. -/
def resolve_fallback_spec (g : GltfState) : Option NodeId :=
  match firstRootOfScenes g.data.scenes with
  | some n => some (NodeId.idx n)
  | none => (lookupId g.vnodes NodeId.root).bind (fun r => r.children.head?)

/-- Active-object resolution written from the specification, section 4.4:
(a) the first root node listed under the designated default scene;
(b) else the first root node found scanning the scenes in declaration
order; (c) else the first child of the DummyRoot; (d) else none. -/
def resolve_active_spec (g : GltfState) : Option NodeId :=
  match g.data.scene.bind
      (fun si => (g.data.scenes[si]?).bind (fun s => s.nodes.head?)) with
  | some n => some (NodeId.idx n)
  | none => resolve_fallback_spec g

/-- The owning-armature substitution of the specification: a resolved
node of kind Bone stands for the Object under its `bone_arma` reference;
any other node stands for itself. -/
def ownerOf (g : GltfState) (i : NodeId) : NodeId :=
  match lookupId g.vnodes i with
  | some v => if v.type = VKind.Bone then v.bone_arma else i
  | none => i

/-- Executable well-formedness of the importer state, as the graph
builder guarantees it: the designated scene index (when any) is in
range; every scene root is in the vnode mapping; the sentinel `root`
vnode exists, has kind DummyRoot and has all its children in the
mapping; every Bone vnode's `bone_arma` is in the mapping. -/
def wfActive (g : GltfState) : Bool :=
  (match g.data.scene with
   | none => true
   | some si => decide (si < g.data.scenes.length))
  && g.data.scenes.all
      (fun s => s.nodes.all (fun n => (lookupId g.vnodes (NodeId.idx n)).isSome))
  && (match lookupId g.vnodes NodeId.root with
      | none => false
      | some r =>
        decide (r.type = VKind.DummyRoot)
          && r.children.all (fun c => (lookupId g.vnodes c).isSome))
  && g.vnodes.all
      (fun p => !(decide (p.2.type = VKind.Bone))
        || (lookupId g.vnodes p.2.bone_arma).isSome)

/-- `BlenderScene.select_imported_objects` (lines 145-153) over an
abstract host selection state (a predicate on vnode ids): when the
select-all operator's poll passes, the selection is first cleared; then
every vnode of kind Object gets its materialized object selected, in
mapping order. -/
def select_imported_objects (g : GltfState) (pollOk : Bool)
    (sel0 : NodeId → Bool) : NodeId → Bool :=
  let sel1 := if pollOk then (fun _ => false) else sel0
  g.vnodes.foldl
    (fun sel p =>
      if p.2.type = VKind.Object then (fun i => if i = p.1 then true else sel i)
      else sel)
    sel1

/-- The host scene settings `BlenderScene.create` can touch at lines
37-38: the render engine, plus everything else (opaque, type `α`). -/
structure SceneSettings (α : Type) where
  render_engine : String
  other : α
  deriving DecidableEq, Repr

/-- Lines 37-38: force a supported render engine, touching nothing
else. -/
def apply_engine_check {α : Type} (s : SceneSettings α) : SceneSettings α :=
  if s.render_engine ∉ ["CYCLES", "BLENDER_EEVEE"] then
    { s with render_engine := "BLENDER_EEVEE" }
  else s

/-- `BlenderScene.create` (lines 30-80) as the trace of host-visible
steps of one import. The ad-hoc mesh post-processing of lines 82-119 is
outside the modelled scope (the specification's section 1 excludes it).
Host conditions enter as parameters: the scene settings at entry and
whether the context mode is already OBJECT. -/
def create {α : Type} (g : GltfState) (settings : SceneSettings α)
    (mode_is_object : Bool) (animHook : Bool → Bool) : Except String (List Ev) :=
  -- lines 37-38
  let pre : List Ev :=
    if settings.render_engine ∉ ["CYCLES", "BLENDER_EEVEE"] then
      [Ev.setRenderEngine]
    else []
  -- lines 40-43: only with a designated default scene
  let sceneEvs : Except String (List Ev) :=
    match g.data.scene with
    | none => Except.ok []
    | some si =>
      match g.data.scenes[si]? with
      | none => Except.error "IndexError: scene index out of range"
      | some _ => Except.ok [Ev.hookBeforeScene si, Ev.setExtras si]
  match sceneEvs with
  | Except.error e => Except.error e
  | Except.ok sevs =>
    match set_active_object g with
    | Except.error e => Except.error e
    | Except.ok _ =>
      Except.ok (pre ++ sevs
        ++ [Ev.computeVnodes,                 -- line 45
            Ev.createVnodeRoot,               -- line 48
            Ev.hookAfterNodes g.data.scene]   -- lines 63-67
        ++ create_animations g animHook       -- line 69
        ++ [Ev.hookAfterAnim g.data.scene]    -- lines 71-75
        ++ (if mode_is_object then [] else [Ev.modeSetObject])  -- lines 77-78
        ++ [Ev.selectObjects,                 -- line 79
            Ev.setActiveObject])              -- line 80

/-- The import phase an event belongs to: 0 graph construction, 1 node
materialization, 2 animation track creation, 3 selection, 4 active-object
resolution; `none` for setup steps and hooks. -/
def phaseOf : Ev → Option Nat
  | Ev.computeVnodes => some 0
  | Ev.createVnodeRoot => some 1
  | Ev.animCreate _ => some 2
  | Ev.animRestore _ => some 2
  | Ev.selectObjects => some 3
  | Ev.setActiveObject => some 4
  | _ => none

/-- Concrete importer state for witnesses: a default scene whose first
root is a Bone owned by the armature Object at index 1. -/
def gBone : GltfState :=
  { data := { scene := some 0, scenes := [⟨[5]⟩], animations := [] },
    vnodes :=
      [(NodeId.root, { type := VKind.DummyRoot, children := [NodeId.idx 1] }),
       (NodeId.idx 1, { type := VKind.Object, children := [NodeId.idx 5] }),
       (NodeId.idx 5, { type := VKind.Bone, bone_arma := NodeId.idx 1 })] }

/-- Concrete importer state for witnesses: a document with zero nodes
(one scene listing none, the DummyRoot childless). -/
def gZero : GltfState :=
  { data := { scene := some 0, scenes := [⟨[]⟩], animations := [] },
    vnodes := [(NodeId.root, { type := VKind.DummyRoot })] }

/-- Concrete importer state for witnesses: no designated default scene,
one Object root under the DummyRoot, one animation. -/
def gNoScene : GltfState :=
  { data := { scene := none, scenes := [], animations := [⟨"Walk"⟩] },
    vnodes :=
      [(NodeId.root, { type := VKind.DummyRoot, children := [NodeId.idx 0] }),
       (NodeId.idx 0, { type := VKind.Object })] }

/-- Concrete scene settings for witnesses. -/
def settingsW : SceneSettings String :=
  { render_engine := "BLENDER_WORKBENCH", other := "untouched" }

/-- The trace `create` produces on `gNoScene` with `settingsW`, OBJECT
mode already active and the identity animation hook. -/
def trNoScene : List Ev :=
  [Ev.setRenderEngine, Ev.computeVnodes, Ev.createVnodeRoot,
   Ev.hookAfterNodes none, Ev.hookAnimOptions, Ev.animCreate 0,
   Ev.animRestore "Walk", Ev.hookAfterAnim none, Ev.selectObjects,
   Ev.setActiveObject]

end GltfImport

namespace GltfImport

/-- Helper: filtering the animation indices out of the track-creation
segment recovers the mapped list. -/
theorem filterMap_animCreate (l : List Nat) :
    (l.map Ev.animCreate).filterMap
      (fun e => match e with | Ev.animCreate i => some i | _ => none) = l := by
  induction l with
  | nil => rfl
  | cons a l ih => simp [List.filterMap_cons, ih]

/-- C1: with N > 0 animations declared, tracks are created by processing
animation indices in exactly the order N-1, N-2, ..., 1, 0 (one creation
step per index), so index 0 is the last track created. -/
theorem anim_tracks_created_in_reverse (g : GltfState) (animHook : Bool → Bool)
    (hpos : 0 < g.data.animations.length) :
    animCreationOrder g animHook = (List.range g.data.animations.length).reverse := by
  unfold animCreationOrder create_animations
  cases hanim : g.data.animations with
  | nil => rw [hanim] at hpos; simp at hpos
  | cons a0 rest =>
    simp only [List.filterMap_cons, List.filterMap_append, filterMap_animCreate]
    cases animHook true <;> simp

/-- Witness for C1 on a concrete three-animation document. -/
theorem anim_tracks_created_in_reverse_witness :
    animCreationOrder gAnims (fun b => b) =
      (List.range gAnims.data.animations.length).reverse :=
  anim_tracks_created_in_reverse gAnims (fun b => b) (by decide)

/-- C3: when the document declares animations, the explicit restore step
runs exactly when the restore flag is still set after the hook: with the
flag set, the trace ends with one restore of the track named by the
declaration-index-0 animation, placed after every track creation; with
the flag cleared, no restore step appears at all. -/
theorem restore_first_track_iff_flag (g : GltfState) (animHook : Bool → Bool)
    (a0 : PyAnim) (rest : List PyAnim) (hanim : g.data.animations = a0 :: rest) :
    (animHook true = true →
      create_animations g animHook =
        Ev.hookAnimOptions ::
          ((List.range g.data.animations.length).reverse.map Ev.animCreate
            ++ [Ev.animRestore a0.track_name]))
    ∧ (animHook true = false →
        ∀ name, Ev.animRestore name ∉ create_animations g animHook) := by
  constructor
  · intro hr
    simp [create_animations, hanim, hr]
  · intro hr name
    simp [create_animations, hanim, hr]

/-- Witness for C3 on the concrete three-animation document with the
identity hook (flag left at its default, `true`). -/
theorem restore_first_track_iff_flag_witness :
    ((fun (b : Bool) => b) true = true →
      create_animations gAnims (fun b => b) =
        Ev.hookAnimOptions ::
          ((List.range gAnims.data.animations.length).reverse.map Ev.animCreate
            ++ [Ev.animRestore (PyAnim.mk "A0").track_name]))
    ∧ ((fun (b : Bool) => b) true = false →
        ∀ name, Ev.animRestore name ∉ create_animations gAnims (fun b => b)) :=
  restore_first_track_iff_flag gAnims (fun b => b) ⟨"A0"⟩ [⟨"A1"⟩, ⟨"A2"⟩] rfl

/-- C7: the animation-options hook is the very first step of animation
processing (before any track creation); the restore step runs exactly
when the flag — handed to the hook with default value `true` — is still
`true` after the hook, and in particular a hook that leaves the flag
unchanged gets the restore step. -/
theorem anim_options_hook_controls_restore (g : GltfState) (animHook : Bool → Bool)
    (hne : g.data.animations ≠ []) :
    (create_animations g animHook).head? = some Ev.hookAnimOptions
    ∧ ((∃ name, Ev.animRestore name ∈ create_animations g animHook)
        ↔ animHook true = true)
    ∧ (∃ name, Ev.animRestore name ∈ create_animations g (fun b => b)) := by
  cases hanim : g.data.animations with
  | nil => exact absurd hanim hne
  | cons a0 rest =>
    refine ⟨rfl, ?_, ?_⟩
    · cases hr : animHook true <;> simp [create_animations, hanim, hr]
    · exact ⟨a0.track_name, by simp [create_animations, hanim]⟩

/-- Witness for C7: a hook that clears the flag on the three-animation
document; with that hook no restore happens, with the identity hook it
does. -/
theorem anim_options_hook_controls_restore_witness :
    (create_animations gAnims (fun _ => false)).head? = some Ev.hookAnimOptions
    ∧ ((∃ name, Ev.animRestore name ∈ create_animations gAnims (fun _ => false))
        ↔ (fun (_ : Bool) => false) true = true)
    ∧ (∃ name, Ev.animRestore name ∈ create_animations gAnims (fun b => b)) :=
  anim_options_hook_controls_restore gAnims (fun _ => false) (by decide)

/-- A successful dictionary lookup is a membership. -/
theorem lookupId_mem {l : List (NodeId × VNode)} {i : NodeId} {v : VNode}
    (h : lookupId l i = some v) : (i, v) ∈ l := by
  induction l with
  | nil => simp [lookupId] at h
  | cons p rest ih =>
    rw [lookupId] at h
    split at h
    · rename_i hp
      obtain rfl : p.2 = v := Option.some.inj h
      obtain ⟨p1, p2⟩ := p
      obtain rfl : p1 = i := hp
      exact List.mem_cons_self _ _
    · exact List.mem_cons_of_mem _ (ih h)

/-- The root yielded by the scene scan is a root of one of the scenes. -/
theorem firstRootOfScenes_mem {l : List PyScene} {n : Nat}
    (h : firstRootOfScenes l = some n) : ∃ s ∈ l, n ∈ s.nodes := by
  induction l with
  | nil => simp [firstRootOfScenes] at h
  | cons s rest ih =>
    rw [firstRootOfScenes] at h
    split at h
    · obtain ⟨s2, hs2, hn⟩ := ih h
      exact ⟨s2, List.mem_cons_of_mem _ hs2, hn⟩
    · rename_i m ms hm
      obtain rfl : m = n := Option.some.inj h
      exact ⟨s, List.mem_cons_self _ _, by rw [hm]; exact List.mem_cons_self _ _⟩

/-- The designated scene index is in range on a well-formed state. -/
theorem wf_scene_lt {g : GltfState} (hwf : wfActive g = true) :
    ∀ si, g.data.scene = some si → si < g.data.scenes.length := by
  intro si hsi
  have h1 := (Bool.and_eq_true .. ▸ hwf).1
  have h2 := (Bool.and_eq_true .. ▸ h1).1
  have h3 := (Bool.and_eq_true .. ▸ h2).1
  rw [hsi] at h3
  simpa using h3

/-- Every scene root is in the vnode mapping on a well-formed state. -/
theorem wf_roots {g : GltfState} (hwf : wfActive g = true) :
    ∀ s ∈ g.data.scenes, ∀ n ∈ s.nodes,
      (lookupId g.vnodes (NodeId.idx n)).isSome := by
  have h1 := (Bool.and_eq_true .. ▸ hwf).1
  have h2 := (Bool.and_eq_true .. ▸ h1).1
  have h3 := (Bool.and_eq_true .. ▸ h2).2
  simpa [List.all_eq_true] using h3

/-- The sentinel root vnode of a well-formed state: present, of kind
DummyRoot, and with every child in the mapping. -/
theorem wf_root {g : GltfState} (hwf : wfActive g = true) :
    ∃ r, lookupId g.vnodes NodeId.root = some r ∧ r.type = VKind.DummyRoot
      ∧ ∀ c ∈ r.children, (lookupId g.vnodes c).isSome := by
  have h1 := (Bool.and_eq_true .. ▸ hwf).1
  have h2 := (Bool.and_eq_true .. ▸ h1).2
  cases hr : lookupId g.vnodes NodeId.root with
  | none => rw [hr] at h2; simp at h2
  | some r =>
    rw [hr] at h2
    simp only [Bool.and_eq_true, decide_eq_true_eq, List.all_eq_true] at h2
    exact ⟨r, rfl, h2.1, fun c hc => h2.2 c hc⟩

/-- Every Bone vnode's `bone_arma` is in the mapping on a well-formed
state. -/
theorem wf_arma {g : GltfState} (hwf : wfActive g = true) :
    ∀ i v, lookupId g.vnodes i = some v → v.type = VKind.Bone →
      (lookupId g.vnodes v.bone_arma).isSome := by
  intro i v hv hb
  have h1 := (Bool.and_eq_true .. ▸ hwf).2
  simp only [List.all_eq_true] at h1
  have := h1 _ (lookupId_mem hv)
  simpa [hb] using this

/-- `finish_active` performs exactly the specification's owning-armature
substitution when the Bone invariant holds for the chosen vnode. -/
theorem finish_active_eq {g : GltfState} {i : NodeId} {v : VNode}
    (hv : lookupId g.vnodes i = some v)
    (harma : v.type = VKind.Bone → (lookupId g.vnodes v.bone_arma).isSome) :
    finish_active g (i, v) = Except.ok (some (ownerOf g i)) := by
  unfold finish_active ownerOf
  rw [hv]
  by_cases hb : v.type = VKind.Bone
  · obtain ⟨w, hw⟩ := Option.isSome_iff_exists.mp (harma hb)
    simp [hb, hw]
  · simp [hb]

/-- The fallback blocks of `set_active_object` implement steps (b)-(d)
of the specification's resolution followed by the owning-armature
substitution. -/
theorem active_fallback_refines (g : GltfState) (hwf : wfActive g = true) :
    active_fallback g = Except.ok ((resolve_fallback_spec g).map (ownerOf g)) := by
  have harma := wf_arma hwf
  unfold active_fallback resolve_fallback_spec
  cases hfr : firstRootOfScenes g.data.scenes with
  | some n =>
    obtain ⟨s, hs, hn⟩ := firstRootOfScenes_mem hfr
    obtain ⟨v, hv⟩ := Option.isSome_iff_exists.mp (wf_roots hwf s hs n hn)
    simp [hv, finish_active_eq hv (fun hb => harma _ _ hv hb)]
  | none =>
    obtain ⟨r, hr, hrty, hrch⟩ := wf_root hwf
    cases hch : r.children with
    | nil => simp [hr, hrty, hch]
    | cons c cs =>
      obtain ⟨vc, hvc⟩ := Option.isSome_iff_exists.mp (hrch c (hch ▸ List.mem_cons_self _ _))
      simp [hr, hrty, hch, hvc, finish_active_eq hvc (fun hb => harma _ _ hvc hb)]

/-- `set_active_object` implements the specification's four-step
resolution followed by the owning-armature substitution (shared core of
the claims about active-object resolution). -/
theorem set_active_refines (g : GltfState) (hwf : wfActive g = true) :
    set_active_object g = Except.ok ((resolve_active_spec g).map (ownerOf g)) := by
  have harma := wf_arma hwf
  unfold set_active_object resolve_active_spec
  cases hsc : g.data.scene with
  | none => simpa using active_fallback_refines g hwf
  | some si =>
    have hlt := wf_scene_lt hwf si hsc
    obtain ⟨pyscene, hps⟩ : ∃ s, g.data.scenes[si]? = some s :=
      ⟨_, List.getElem?_eq_getElem hlt⟩
    cases hn : pyscene.nodes with
    | nil => simp [hps, hn, active_fallback_refines g hwf]
    | cons n ns =>
      have hmem : pyscene ∈ g.data.scenes := by
        obtain ⟨hlt2, hget⟩ := List.getElem?_eq_some.mp hps
        exact hget ▸ List.getElem_mem _
      obtain ⟨v, hv⟩ := Option.isSome_iff_exists.mp
        (wf_roots hwf pyscene hmem n (hn ▸ List.mem_cons_self _ _))
      simp [hps, hn, hv, finish_active_eq hv (fun hb => harma _ _ hv hb)]

/-- C2: on a well-formed importer state, the active object is resolved
exactly by the specification's priority order — (a) first root of the
designated default scene, (b) else first root found scanning scenes in
declaration order, (c) else first child of the DummyRoot, (d) else no
active object — followed by the owning-armature substitution for a
resolved Bone. -/
theorem active_object_resolution_priority (g : GltfState)
    (hwf : wfActive g = true) :
    set_active_object g = Except.ok ((resolve_active_spec g).map (ownerOf g)) :=
  set_active_refines g hwf

/-- Witness for C2 on a concrete well-formed state whose default scene's
first root is a Bone. -/
theorem active_object_resolution_priority_witness :
    set_active_object gBone =
      Except.ok ((resolve_active_spec gBone).map (ownerOf gBone)) :=
  active_object_resolution_priority gBone (by decide)

/-- C5: when active-object resolution picks a vnode of kind Bone, the
node actually made active is the one under the bone's `bone_arma`
reference (its owning armature Object), never the Bone itself. -/
theorem bone_active_substitutes_armature (g : GltfState) (i : NodeId)
    (v w : VNode) (hwf : wfActive g = true)
    (hres : resolve_active_spec g = some i)
    (hv : lookupId g.vnodes i = some v) (hb : v.type = VKind.Bone)
    (hw : lookupId g.vnodes v.bone_arma = some w)
    (hwObj : w.type = VKind.Object) :
    set_active_object g = Except.ok (some v.bone_arma) ∧ v.bone_arma ≠ i := by
  constructor
  · rw [set_active_refines g hwf, hres]
    simp [ownerOf, hv, hb]
  · intro heq
    rw [heq, hv] at hw
    obtain rfl : v = w := Option.some.inj hw
    rw [hb] at hwObj
    exact VKind.noConfusion hwObj

/-- Witness for C5 on the concrete state whose default scene's first
root is the Bone at index 5, owned by the armature Object at index 1. -/
theorem bone_active_substitutes_armature_witness :
    set_active_object gBone =
      Except.ok (some (VNode.mk VKind.Bone [] (NodeId.idx 1)).bone_arma)
    ∧ (VNode.mk VKind.Bone [] (NodeId.idx 1)).bone_arma ≠ NodeId.idx 5 :=
  bone_active_substitutes_armature gBone (NodeId.idx 5)
    (VNode.mk VKind.Bone [] (NodeId.idx 1))
    (VNode.mk VKind.Object [NodeId.idx 5] NodeId.root)
    (by decide) (by decide) (by decide) (by decide) (by decide) (by decide)

/-- A document whose scenes list no roots has no first scan root. -/
theorem firstRootOfScenes_eq_none {l : List PyScene}
    (h : ∀ s ∈ l, s.nodes = []) : firstRootOfScenes l = none := by
  induction l with
  | nil => rfl
  | cons s rest ih =>
    rw [firstRootOfScenes, h s (List.mem_cons_self _ _)]
    exact ih (fun s2 hs2 => h s2 (List.mem_cons_of_mem _ hs2))

/-- C8: on a document with zero nodes — every scene lists no roots and
the DummyRoot is childless — `set_active_object` returns without error
and sets no active object. -/
theorem zero_nodes_yields_no_active (g : GltfState) (r : VNode)
    (hsc : ∀ si ∈ g.data.scene.toList, si < g.data.scenes.length)
    (hempty : ∀ s ∈ g.data.scenes, s.nodes = [])
    (hroot : lookupId g.vnodes NodeId.root = some r)
    (hdummy : r.type = VKind.DummyRoot) (hnoch : r.children = []) :
    set_active_object g = Except.ok none := by
  have hfr : firstRootOfScenes g.data.scenes = none := firstRootOfScenes_eq_none hempty
  have hfb : active_fallback g = Except.ok none := by
    simp [active_fallback, hfr, hroot, hdummy, hnoch]
  unfold set_active_object
  cases hs : g.data.scene with
  | none => simpa using hfb
  | some si =>
    have hlt : si < g.data.scenes.length := hsc si (by simp [hs])
    obtain ⟨pyscene, hps⟩ : ∃ s, g.data.scenes[si]? = some s :=
      ⟨_, List.getElem?_eq_getElem hlt⟩
    have hmem : pyscene ∈ g.data.scenes := by
      obtain ⟨hlt2, hget⟩ := List.getElem?_eq_some.mp hps
      exact hget ▸ List.getElem_mem _
    simp [hps, hempty pyscene hmem, hfb]

/-- Witness for C8 on the concrete zero-node state. -/
theorem zero_nodes_yields_no_active_witness :
    set_active_object gZero = Except.ok none :=
  zero_nodes_yields_no_active gZero (VNode.mk VKind.DummyRoot [] NodeId.root)
    (by decide) (by decide) (by decide) (by decide) (by decide)

/-- The selection fold only ever adds the ids of Object entries to the
selection it starts from. -/
theorem select_foldl_eq (l : List (NodeId × VNode)) (sel : NodeId → Bool)
    (i : NodeId) :
    (l.foldl
      (fun sel p =>
        if p.2.type = VKind.Object then (fun j => if j = p.1 then true else sel j)
        else sel)
      sel) i
    = (sel i || l.any (fun p => decide (p.1 = i ∧ p.2.type = VKind.Object))) := by
  induction l generalizing sel with
  | nil => simp
  | cons p rest ih =>
    rw [List.foldl_cons, ih, List.any_cons]
    by_cases hobj : p.2.type = VKind.Object
    · by_cases hpi : p.1 = i
      · simp [hobj, hpi]
      · have : ¬ (i = p.1) := fun h => hpi h.symm
        simp [hobj, hpi, this]
    · simp [hobj]

/-- With distinct keys, a membership is recovered by lookup. -/
theorem lookupId_eq_some_of_mem {l : List (NodeId × VNode)}
    (hnd : (l.map Prod.fst).Nodup) {i : NodeId} {v : VNode}
    (hm : (i, v) ∈ l) : lookupId l i = some v := by
  induction l with
  | nil => simp at hm
  | cons p rest ih =>
    rw [lookupId]
    rcases List.mem_cons.mp hm with h | h
    · rw [← h]
      simp
    · by_cases hpi : p.1 = i
      · exfalso
        have hin : i ∈ rest.map Prod.fst := List.mem_map.mpr ⟨(i, v), h, rfl⟩
        have := (List.nodup_cons.mp hnd).1
        exact this (hpi ▸ hin)
      · rw [if_neg hpi]
        exact ih (List.nodup_cons.mp hnd).2 h

/-- C4: when the select-all poll passes, the finalizer's selection step
clears the host selection and then selects exactly the materialized
entities of vnodes of kind Object; Bone and DummyRoot vnodes (and
anything previously selected) end up unselected. -/
theorem selection_exactly_object_vnodes (g : GltfState) (sel0 : NodeId → Bool)
    (hkeys : (g.vnodes.map Prod.fst).Nodup) (i : NodeId) :
    select_imported_objects g true sel0 i = true
      ↔ ∃ v, lookupId g.vnodes i = some v ∧ v.type = VKind.Object := by
  unfold select_imported_objects
  rw [show ((if (true : Bool) then (fun (_ : NodeId) => false) else sel0)
      = fun _ => false) from rfl]
  rw [select_foldl_eq]
  simp only [Bool.false_or]
  constructor
  · intro h
    obtain ⟨p, hp, hdec⟩ := List.any_eq_true.mp h
    obtain ⟨hpi, hobj⟩ := of_decide_eq_true hdec
    refine ⟨p.2, ?_, hobj⟩
    have : (i, p.2) ∈ g.vnodes := by
      have : p = (i, p.2) := by
        obtain ⟨p1, p2⟩ := p
        simp at hpi ⊢
        exact hpi
      exact this ▸ hp
    exact lookupId_eq_some_of_mem hkeys this
  · rintro ⟨v, hv, hobj⟩
    exact List.any_eq_true.mpr ⟨(i, v), lookupId_mem hv, by simp [hobj]⟩

/-- Witness for C4 on the concrete Bone-and-armature state, at the
armature Object's id. -/
theorem selection_exactly_object_vnodes_witness :
    select_imported_objects gBone true (fun _ => false) (NodeId.idx 1) = true
      ↔ ∃ v, lookupId gBone.vnodes (NodeId.idx 1) = some v
          ∧ v.type = VKind.Object :=
  selection_exactly_object_vnodes gBone (fun _ => false) (by decide) (NodeId.idx 1)

/-- Filtering phases out of mapped track creations gives one animation
phase per creation. -/
theorem filterMap_phase_animCreate (l : List Nat) :
    List.filterMap (phaseOf ∘ Ev.animCreate) l = List.replicate l.length 2 := by
  induction l with
  | nil => rfl
  | cons a l ih =>
    simp [phaseOf, List.replicate_succ, ih, Function.comp]

/-- Shifting one animation phase across a run of animation phases. -/
theorem replicate_two_snoc (n : Nat) :
    (2 : Nat) :: (List.replicate n 2 ++ [2]) = List.replicate n 2 ++ [2, 2] := by
  induction n with
  | zero => rfl
  | succ n ih => simp [List.replicate_succ, ih]

/-- Every step of animation processing is in the animation phase (or is
the phase-less options hook). -/
theorem create_animations_phases (g : GltfState) (ah : Bool → Bool) :
    ∃ k, (create_animations g ah).filterMap phaseOf = List.replicate k 2 := by
  unfold create_animations
  cases g.data.animations with
  | nil => exact ⟨0, by simp [phaseOf]⟩
  | cons a0 rest =>
    cases hr : ah true with
    | false =>
      refine ⟨rest.length + 1, ?_⟩
      simp [phaseOf, hr, List.filterMap_append, filterMap_phase_animCreate,
        List.reverse_replicate]
    | true =>
      refine ⟨rest.length + 1 + 1, ?_⟩
      simp [phaseOf, hr, List.filterMap_append, filterMap_phase_animCreate,
        List.reverse_replicate, List.replicate_succ', replicate_two_snoc]

/-- Animation processing emits only its own three step shapes. -/
theorem create_animations_events (g : GltfState) (ah : Bool → Bool) :
    ∀ e ∈ create_animations g ah,
      e = Ev.hookAnimOptions ∨ (∃ i, e = Ev.animCreate i)
        ∨ ∃ s, e = Ev.animRestore s := by
  intro e he
  unfold create_animations at he
  cases hanim : g.data.animations with
  | nil =>
    rw [hanim] at he
    simp at he
    exact Or.inl he
  | cons a0 rest =>
    rw [hanim] at he
    simp only [List.mem_cons, List.mem_append, List.mem_map] at he
    rcases he with he | ⟨i, _, he⟩ | he
    · exact Or.inl he
    · exact Or.inr (Or.inl ⟨i, he.symm⟩)
    · revert he
      split
      · intro he
        simp only [List.mem_singleton] at he
        exact Or.inr (Or.inr ⟨a0.track_name, he⟩)
      · intro he
        simp at he

/-- The before-scene hook step never occurs inside animation
processing. -/
theorem hookBeforeScene_notin_anims (g : GltfState) (ah : Bool → Bool)
    (si : Nat) : Ev.hookBeforeScene si ∉ create_animations g ah := by
  intro hin
  rcases create_animations_events g ah _ hin with h | ⟨i, h⟩ | ⟨s, h⟩ <;>
    exact Ev.noConfusion h

/-- The extras-copy step never occurs inside animation processing. -/
theorem setExtras_notin_anims (g : GltfState) (ah : Bool → Bool)
    (si : Nat) : Ev.setExtras si ∉ create_animations g ah := by
  intro hin
  rcases create_animations_events g ah _ hin with h | ⟨i, h⟩ | ⟨s, h⟩ <;>
    exact Ev.noConfusion h

/-- C6: every import that completes runs its phases in the fixed order:
graph construction (0), then node materialization (1), then animation
track creation (2, repeated), then selection (3), then active-object
resolution (4); no later phase starts before the previous one is done. -/
theorem import_phases_in_fixed_order {α : Type} (g : GltfState)
    (settings : SceneSettings α) (mio : Bool) (ah : Bool → Bool) (tr : List Ev)
    (h : create g settings mio ah = Except.ok tr) :
    ∃ k, tr.filterMap phaseOf = 0 :: 1 :: (List.replicate k 2 ++ [3, 4]) := by
  obtain ⟨k, hk⟩ := create_animations_phases g ah
  refine ⟨k, ?_⟩
  unfold create at h
  cases hsc : g.data.scene with
  | none =>
    simp only [hsc] at h
    cases hsa : set_active_object g with
    | error e => rw [hsa] at h; exact absurd h (by simp)
    | ok o =>
      rw [hsa] at h
      obtain rfl : tr = _ := (Except.ok.inj h).symm
      simp only [List.filterMap_append, hk, List.filterMap_cons, phaseOf]
      split <;> split <;> simp [phaseOf]
  | some si =>
    simp only [hsc] at h
    cases hps : g.data.scenes[si]? with
    | none => rw [hps] at h; exact absurd h (by simp)
    | some pyscene =>
      rw [hps] at h
      cases hsa : set_active_object g with
      | error e => rw [hsa] at h; exact absurd h (by simp)
      | ok o =>
        rw [hsa] at h
        obtain rfl : tr = _ := (Except.ok.inj h).symm
        simp only [List.filterMap_append, hk, List.filterMap_cons, phaseOf]
        split <;> split <;> simp [phaseOf]

/-- Witness for C6 on the concrete no-default-scene import. -/
theorem import_phases_in_fixed_order_witness :
    ∃ k, trNoScene.filterMap phaseOf = 0 :: 1 :: (List.replicate k 2 ++ [3, 4]) :=
  import_phases_in_fixed_order gNoScene settingsW true (fun b => b) trNoScene rfl

/-- A step of the engine-check segment can only be the engine write. -/
theorem mem_engine_pre {α : Type} (settings : SceneSettings α) {e : Ev}
    (h : e ∈ (if settings.render_engine ∉ ["CYCLES", "BLENDER_EEVEE"]
      then [Ev.setRenderEngine] else ([] : List Ev))) :
    e = Ev.setRenderEngine := by
  revert h; split <;> simp

/-- A step of the mode-reset segment can only be the mode switch. -/
theorem mem_mode_evs {e : Ev} (mio : Bool)
    (h : e ∈ (if mio then ([] : List Ev) else [Ev.modeSetObject])) :
    e = Ev.modeSetObject := by
  revert h; split <;> simp

/-- C9: the before-scene hook (and the extras copy next to it) happens
exactly on imports with a designated default scene, while the
after-nodes and after-animation hooks happen on every completed import,
carrying the (possibly absent) default-scene designation. -/
theorem before_scene_hook_only_with_default_scene {α : Type} (g : GltfState)
    (settings : SceneSettings α) (mio : Bool) (ah : Bool → Bool) (tr : List Ev)
    (h : create g settings mio ah = Except.ok tr) :
    ((∃ si, Ev.hookBeforeScene si ∈ tr) ↔ g.data.scene.isSome)
    ∧ ((∃ si, Ev.setExtras si ∈ tr) ↔ g.data.scene.isSome)
    ∧ Ev.hookAfterNodes g.data.scene ∈ tr
    ∧ Ev.hookAfterAnim g.data.scene ∈ tr := by
  unfold create at h
  cases hsc : g.data.scene with
  | none =>
    simp only [hsc] at h
    cases hsa : set_active_object g with
    | error e => rw [hsa] at h; exact absurd h (by simp)
    | ok o =>
      rw [hsa] at h
      obtain rfl : tr = _ := (Except.ok.inj h).symm
      refine ⟨?_, ?_, by simp, by simp⟩
      · constructor
        · rintro ⟨si, hin⟩
          exfalso
          rcases List.mem_append.mp hin with hin | hin
          · rcases List.mem_append.mp hin with hin | hin
            · rcases List.mem_append.mp hin with hin | hin
              · rcases List.mem_append.mp hin with hin | hin
                · rcases List.mem_append.mp hin with hin | hin
                  · rcases List.mem_append.mp hin with hin | hin
                    · exact Ev.noConfusion (mem_engine_pre settings hin)
                    · simp at hin
                  · simp at hin
                · exact hookBeforeScene_notin_anims g ah si hin
              · simp at hin
            · exact Ev.noConfusion (mem_mode_evs mio hin)
          · simp at hin
        · intro hf; simp at hf
      · constructor
        · rintro ⟨si, hin⟩
          exfalso
          rcases List.mem_append.mp hin with hin | hin
          · rcases List.mem_append.mp hin with hin | hin
            · rcases List.mem_append.mp hin with hin | hin
              · rcases List.mem_append.mp hin with hin | hin
                · rcases List.mem_append.mp hin with hin | hin
                  · rcases List.mem_append.mp hin with hin | hin
                    · exact Ev.noConfusion (mem_engine_pre settings hin)
                    · simp at hin
                  · simp at hin
                · exact setExtras_notin_anims g ah si hin
              · simp at hin
            · exact Ev.noConfusion (mem_mode_evs mio hin)
          · simp at hin
        · intro hf; simp at hf
  | some si =>
    simp only [hsc] at h
    cases hps : g.data.scenes[si]? with
    | none => rw [hps] at h; exact absurd h (by simp)
    | some pyscene =>
      rw [hps] at h
      cases hsa : set_active_object g with
      | error e => rw [hsa] at h; exact absurd h (by simp)
      | ok o =>
        rw [hsa] at h
        obtain rfl : tr = _ := (Except.ok.inj h).symm
        refine ⟨⟨fun _ => rfl, fun _ => ⟨si, by simp⟩⟩,
          ⟨fun _ => rfl, fun _ => ⟨si, by simp⟩⟩, by simp, by simp⟩

/-- Witness for C9 on the concrete no-default-scene import: no
before-scene hook, both later hooks present with the absent scene. -/
theorem before_scene_hook_only_with_default_scene_witness :
    ((∃ si, Ev.hookBeforeScene si ∈ trNoScene) ↔ gNoScene.data.scene.isSome)
    ∧ ((∃ si, Ev.setExtras si ∈ trNoScene) ↔ gNoScene.data.scene.isSome)
    ∧ Ev.hookAfterNodes gNoScene.data.scene ∈ trNoScene
    ∧ Ev.hookAfterAnim gNoScene.data.scene ∈ trNoScene :=
  before_scene_hook_only_with_default_scene gNoScene settingsW true
    (fun b => b) trNoScene rfl

/-- C10: the render-engine check leaves the engine in {CYCLES,
BLENDER_EEVEE} after every import, overwrites an unsupported engine with
BLENDER_EEVEE, keeps a supported engine as it was, and touches no other
scene setting. -/
theorem render_engine_forced_to_supported {α : Type} (s : SceneSettings α) :
    (apply_engine_check s).render_engine ∈ ["CYCLES", "BLENDER_EEVEE"]
    ∧ (apply_engine_check s).other = s.other
    ∧ (s.render_engine ∈ ["CYCLES", "BLENDER_EEVEE"] → apply_engine_check s = s)
    ∧ (s.render_engine ∉ ["CYCLES", "BLENDER_EEVEE"] →
        (apply_engine_check s).render_engine = "BLENDER_EEVEE") := by
  by_cases hc : s.render_engine ∈ ["CYCLES", "BLENDER_EEVEE"]
  · exact ⟨by simp [apply_engine_check, hc], by simp [apply_engine_check, hc],
      fun _ => by simp [apply_engine_check, hc], fun hn => absurd hc hn⟩
  · exact ⟨by simp [apply_engine_check, hc], by simp [apply_engine_check, hc],
      fun hmem => absurd hmem hc, fun _ => by simp [apply_engine_check, hc]⟩

end GltfImport
